import Mathlib

/-!
# Verification of the bismite parser (`src/parser.rs`)

A shallow embedding of the hand-rolled recursive-descent / precedence-climbing
parser in `src/parser.rs`.  The parser consumes a token stream (the lexer is an
external collaborator) and produces an AST of declarations or a structured
error.

Modelling decisions, each noted at the definition it concerns:

* The token stream is a `List Token`.  The source's one-token peek buffer over
  a deterministic lexer is equivalent to reading the head of the remaining
  list; `next` both returns the head and advances, `peek` returns the head
  without advancing, exactly as the `Parser::next`/`Parser::peek` pair does.
  Pulling a token of kind `Eof` or `Error` is an error (`Parser::next`,
  src/parser.rs lines 597-613).
* Rust panics (`unimplemented!()`, `panic!("error here")`, `Vec` index out of
  bounds, `Option::unwrap`/`Result::unwrap` on `None`/`Err`) are a distinct
  outcome `Fatal.panicked`, separate from returned `ParserError`s.
* Recursion is made structural with a fuel parameter; exhausting fuel yields
  the artificial outcome `Fatal.outOfFuel`, which no theorem ever reaches.
* The global string interner maps identical text to identical handles and is
  otherwise opaque (spec section 3, "Symbol"); we take the interned symbol to
  be the text itself, which preserves exactly the equalities the interner
  guarantees.
-/

set_option maxRecDepth 16384

namespace Bismite

/-- Byte range of a node or token (`codespan::ByteSpan`).  `stop` is the
source's `end()`, renamed because `end` is a Lean keyword. -/
structure ByteSpan where
  start : Nat
  stop : Nat
deriving Repr, DecidableEq

/-- Token kinds.  Modelled from the spec: `token.rs` is not under `src/`; the
spec (section 6) fixes the closed kind set: identifier, the `struct`/`fn`/`let`
keywords, punctuation, `->`, `=`, path separator, operator symbols, the four
integer literal kinds, float and raw-string literals, end-of-stream and
lexical error.  `letKw` stands for the `let` keyword (`let` is a Lean
keyword). -/
inductive TokenKind where
  | ident
  | struct
  | fn
  | letKw
  | lparen
  | rparen
  | lbrace
  | rbrace
  | lbracket
  | rbracket
  | colon
  | comma
  | semicolon
  | arrow
  | assign
  | pathSeparator
  | plus
  | minus
  | star
  | slash
  | lt
  | gt
  | le
  | ge
  | eq
  | neq
  | dot
  | not
  | decLit
  | hexLit
  | octLit
  | binLit
  | floatLit
  | rawStr
  | eof
  | error
deriving Repr, DecidableEq

/-- A token: kind, exact source slice, byte span (`token.rs`, used throughout
`parser.rs`). -/
structure Token where
  kind : TokenKind
  lit : String
  span : ByteSpan
deriving Repr, DecidableEq

/-- An interned identifier occurrence (`ast::Ident`): its span and its
symbol.  The symbol is modelled as the identifier's text (see the header
comment on the interner). -/
structure Ident where
  span : ByteSpan
  id : String
deriving Repr, DecidableEq

/-- One path segment (`ast::PathSegment`), currently exactly one `Ident`. -/
structure PathSegment where
  ident : Ident
deriving Repr, DecidableEq

/-- A dotted path (`ast::Path`): span plus ordered segments. -/
structure Path where
  span : ByteSpan
  segments : List PathSegment
deriving Repr, DecidableEq

/-- Unary operators.  Modelled from the spec: `ast.rs` is not under `src/`;
the spec (section 4.4) names leading `-` and logical not as the unary
operators. -/
inductive UnaryOp where
  | minus
  | not
deriving Repr, DecidableEq

/-- Binary operators.  Modelled from the spec: `ast.rs` is not under `src/`;
the spec (sections 4.4 and 8) fixes the binary set `+ - * /`, the four
comparisons, equality/inequality, and the member-access operator `.`. -/
inductive BinaryOp where
  | add
  | sub
  | mul
  | div
  | lt
  | gt
  | le
  | ge
  | eq
  | neq
  | access
deriving Repr, DecidableEq

/-- Modelled from the spec: `BinaryOp::precedence` lives in the missing
`ast.rs`.  The spec (section 4.4) requires only the order "access > than
multiplicative > additive > comparison > equality/inequality"; the concrete
numbers below are one such assignment (the source uses `u8`; every claim
depends only on the order). -/
def BinaryOp.precedence : BinaryOp → Nat
  | .access => 5
  | .mul | .div => 4
  | .add | .sub => 3
  | .lt | .gt | .le | .ge => 2
  | .eq | .neq => 1

/-- Modelled from the spec: `TryFrom<Token> for BinaryOp` lives in the missing
`ast.rs`.  Maps an operator token to its binary operator, `none` for every
other kind. -/
def binaryOpOfToken (t : Token) : Option BinaryOp :=
  match t.kind with
  | .plus => some .add
  | .minus => some .sub
  | .star => some .mul
  | .slash => some .div
  | .lt => some .lt
  | .gt => some .gt
  | .le => some .le
  | .ge => some .ge
  | .eq => some .eq
  | .neq => some .neq
  | .dot => some .access
  | _ => none

/-- Modelled from the spec: `TryFrom<Token> for UnaryOp` lives in the missing
`ast.rs`.  Leading `-` and logical not are the unary operators. -/
def unaryOpOfToken (t : Token) : Option UnaryOp :=
  match t.kind with
  | .minus => some .minus
  | .not => some .not
  | _ => none

mutual
/-- `ast::TypeKind`: a path type or a fixed-size array type (element type and
element count, the count a `usize`). -/
inductive TypeKind where
  | path : Path → TypeKind
  | array : Ty → Nat → TypeKind
/-- `ast::Type` (named `Ty`, `Type` being reserved in Lean): span plus kind. -/
inductive Ty where
  | mk : ByteSpan → TypeKind → Ty
end

/-- The span of a type node. -/
def Ty.span : Ty → ByteSpan
  | .mk s _ => s

/-- The kind of a type node. -/
def Ty.kind : Ty → TypeKind
  | .mk _ k => k

mutual
/-- `ast::LiteralKind`.  `int` is the 128-bit signed value (`i128`, carried as
`Int`; the conversion that produces it enforces the `i128` range).  `float`
carries the literal's text: the `f64` conversion is external library code and
no claim concerns float values.  `rawStr` carries the interned contents,
`array` the element expressions, `ident` a bare identifier in literal
position. -/
inductive LiteralKind where
  | int : Int → LiteralKind
  | float : String → LiteralKind
  | rawStr : String → LiteralKind
  | array : List Expression → LiteralKind
  | ident : Ident → LiteralKind
/-- `ast::Literal`: kind plus span (`Literal::new(kind, span)`). -/
inductive Literal where
  | mk : LiteralKind → ByteSpan → Literal
/-- `ast::ExpressionKind`: the expression forms produced by the parser. -/
inductive ExpressionKind where
  | literal : Literal → ExpressionKind
  | unary : UnaryOp → Expression → ExpressionKind
  | binary : Expression → BinaryOp → Expression → ExpressionKind
  | fnCall : Path → List Expression → ExpressionKind
  | methodCall : PathSegment → List Expression → ExpressionKind
  | fieldAccess : Expression → Ident → ExpressionKind
  | path : Path → ExpressionKind
/-- `ast::Expression`: kind plus span (`Expression::new(kind, span)`). -/
inductive Expression where
  | mk : ExpressionKind → ByteSpan → Expression
end

/-- The kind of a literal. -/
def Literal.kind : Literal → LiteralKind
  | .mk k _ => k

/-- The span of a literal. -/
def Literal.span : Literal → ByteSpan
  | .mk _ s => s

/-- The kind of an expression node. -/
def Expression.kind : Expression → ExpressionKind
  | .mk k _ => k

/-- The span of an expression node. -/
def Expression.span : Expression → ByteSpan
  | .mk _ s => s

/-- `ast::FieldDecl`: one struct field. -/
structure FieldDecl where
  ident : Ident
  field_type : Ty
  span : ByteSpan

/-- `ast::StructDecl`. -/
structure StructDecl where
  ident : Ident
  fields : List FieldDecl
  span : ByteSpan

/-- `ast::ParameterDecl`: one `identifier : type` function parameter. -/
structure ParameterDecl where
  ident : Ident
  ty : Ty
  span : ByteSpan

/-- `ast::VarDecl`: a `let` statement's parts. -/
structure VarDecl where
  ident : Ident
  ty : Option Ty
  value : Expression
  span : ByteSpan

/-- `ast::StatementDecl`: currently the single variant `VarDecl`. -/
inductive StatementDecl where
  | varDecl : VarDecl → StatementDecl

/-- `ast::FnDecl`. -/
structure FnDecl where
  ident : Ident
  parameters : List ParameterDecl
  ret : Option Ty
  statements : List StatementDecl
  span : ByteSpan

/-- `ast::Decls`: a top-level declaration. -/
inductive Decls where
  | struct : StructDecl → Decls
  | fn : FnDecl → Decls

/-- `ParserError` (src/parser.rs lines 642-649). -/
inductive ParserError where
  | expectedIntegerLit : LiteralKind → ParserError
  | invalidToken : Token → Option TokenKind → ParserError
  | invalidArraySize : Int → ParserError
  | unexpectedToken : Token → ParserError

/-- Every way a parser routine can fail to return: a returned `ParserError`, a
Rust panic (with the panicking construct named), or the embedding-only fuel
exhaustion (never reached by any theorem below). -/
inductive Fatal where
  | parseError : ParserError → Fatal
  | panicked : String → Fatal
  | outOfFuel : Fatal

/-- The token the cursor reports when the underlying stream is already
exhausted.  Streams in every theorem end with an explicit `eof`-kind token, so
this value sits on a dead branch; it exists only to keep `next` total. -/
def eofToken : Token :=
  { kind := .eof, lit := "", span := { start := 0, stop := 0 } }

/-- `Parser::next` (src/parser.rs lines 597-613): take the next token;
receiving a lexical-error or end-of-stream token is an error carrying that
token (`From<Token> for ParserError` gives `InvalidToken(token, None)`). -/
def next : List Token → Except Fatal (Token × List Token)
  | [] => .error (.parseError (.invalidToken eofToken none))
  | t :: ts =>
    if t.kind = .eof ∨ t.kind = .error then
      .error (.parseError (.invalidToken t none))
    else
      .ok (t, ts)

/-- `Parser::peek` (src/parser.rs lines 615-623): look at the next token
without consuming it. -/
def peek (ts : List Token) : Except Fatal (Token × List Token) :=
  match next ts with
  | .ok (t, _) => .ok (t, ts)
  | .error e => .error e

/-- `Parser::eat` (src/parser.rs lines 559-567): consume the next token and
fail with `InvalidToken` carrying it when its kind is not `expected`. -/
def eat (expected : TokenKind) (ts : List Token) : Except Fatal (Token × List Token) :=
  match next ts with
  | .error e => .error e
  | .ok (t, ts') =>
    if t.kind = expected then .ok (t, ts') else .error (.parseError (.invalidToken t none))

/-- `Parser::parse_ident` (src/parser.rs lines 211-220): eat an identifier
token and intern its text. -/
def parseIdent (ts : List Token) : Except Fatal (Ident × List Token) :=
  match eat .ident ts with
  | .error e => .error e
  | .ok (t, ts') => .ok ({ span := t.span, id := t.lit }, ts')

/-- `Parser::parse_path_segment` (src/parser.rs lines 275-279). -/
def parsePathSegment (ts : List Token) : Except Fatal (PathSegment × List Token) :=
  match parseIdent ts with
  | .error e => .error e
  | .ok (i, ts') => .ok ({ ident := i }, ts')

/-- The model of Rust's `i128::MAX`. -/
def i128Max : Int := 2 ^ 127 - 1

/-- Models `char::to_digit` as used by `from_str_radix`: the value of one
digit character, `none` when the character is no digit of the radix. -/
def digitValue (radix : Nat) (c : Char) : Option Nat :=
  let v : Option Nat :=
    if '0' ≤ c ∧ c ≤ '9' then some (c.toNat - '0'.toNat)
    else if 'a' ≤ c ∧ c ≤ 'z' then some (c.toNat - 'a'.toNat + 10)
    else if 'A' ≤ c ∧ c ≤ 'Z' then some (c.toNat - 'A'.toNat + 10)
    else none
  match v with
  | some d => if d < radix then some d else none
  | none => none

/-- Digit accumulation of `from_str_radix`: left fold `acc * radix + digit`,
`none` on the first non-digit. -/
def natFromDigits (radix : Nat) (acc : Nat) : List Char → Option Nat
  | [] => some acc
  | c :: cs =>
    match digitValue radix c with
    | some d => natFromDigits radix (acc * radix + d) cs
    | none => none

/-- Models Rust's `i128::from_str_radix` (external standard library code used
at src/parser.rs lines 316-339): an optional `+`/`-` sign followed by at least
one digit of the radix; the value must fit in `i128`.  Rust checks overflow at
each accumulation step, which accepts exactly the same strings as the final
range check here because the accumulated value only grows. -/
def i128FromStrRadix (s : String) (radix : Nat) : Option Int :=
  match s.data with
  | [] => none
  | c :: cs =>
    if c = '-' then
      match natFromDigits radix 0 cs with
      | some n => if cs = [] then none else if (n : Int) ≤ 2 ^ 127 then some (-(n : Int)) else none
      | none => none
    else
      let ds := if c = '+' then cs else c :: cs
      match natFromDigits radix 0 ds with
      | some n => if ds = [] then none else if (n : Int) ≤ i128Max then some (n : Int) else none
      | none => none

/-- Models the byte slice `&lit[2..]` that strips the fixed two-character
`0x`/`0o`/`0b` prefix (src/parser.rs lines 324, 330, 336); the prefix is
ASCII, so two bytes are two characters. -/
def dropPre2 (s : String) : String :=
  String.mk (s.data.drop 2)

/-- Models the byte slice `&lit[1..len - 1]` that strips a raw string's
delimiters (src/parser.rs line 352); the delimiters are ASCII. -/
def stripDelims (s : String) : String :=
  String.mk (s.data.drop 1).dropLast

/-- The last of a nonempty segment list, `segments[segments.len() - 1]`
(src/parser.rs line 267). -/
def lastSegment (s : PathSegment) : List PathSegment → PathSegment
  | [] => s
  | t :: r => lastSegment t r

/-- The segment loop of `Parser::parse_path` (src/parser.rs lines 262-264):
`while self.peek()?.kind == TokenKind::Ident` push one segment. -/
def parsePathSegments (fuel : Nat) (ts : List Token) :
    Except Fatal (List PathSegment × List Token) :=
  match fuel with
  | 0 => .error .outOfFuel
  | fuel + 1 =>
    match peek ts with
    | .error e => .error e
    | .ok (pk, _) =>
      if pk.kind = .ident then
        match parsePathSegment ts with
        | .error e => .error e
        | .ok (s, ts₁) =>
          match parsePathSegments fuel ts₁ with
          | .error e => .error e
          | .ok (ss, ts₂) => .ok (s :: ss, ts₂)
      else
        .ok ([], ts)

/-- `Parser::parse_path` (src/parser.rs lines 254-273): an optional leading
path separator, then identifier segments while the lookahead is an identifier.
The span is read off `segments[0]` and `segments[segments.len() - 1]`; when no
segment was parsed, `segments[0]` is a Rust index-out-of-bounds panic. -/
def parsePath (fuel : Nat) (ts : List Token) : Except Fatal (Path × List Token) :=
  match peek ts with
  | .error e => .error e
  | .ok (pk, _) =>
    let afterSep : Except Fatal (List Token) :=
      if pk.kind = .pathSeparator then
        match eat .pathSeparator ts with
        | .error e => .error e
        | .ok (_, ts₁) => .ok ts₁
      else
        .ok ts
    match afterSep with
    | .error e => .error e
    | .ok ts₁ =>
      match parsePathSegments fuel ts₁ with
      | .error e => .error e
      | .ok (segments, ts₂) =>
        match segments with
        | [] => .error (.panicked "index out of bounds")
        | s :: rest =>
          .ok ({ span := { start := s.ident.span.start,
                           stop := (lastSegment s rest).ident.span.stop },
                 segments := s :: rest }, ts₂)

/-- The member-access / binary-operator fold of `Parser::parse_inner_expression`
(src/parser.rs lines 394-423).  For the access operator the right-hand side
must be a bare identifier literal (giving `FieldAccess`) or a call (giving
`MethodCall` whose segment is `segment.segments.remove(0)` — a panic when the
path is empty — and whose arguments get the left-hand side inserted at index
0); any other shape is the `panic!("error here")`.  Every other operator
builds a `Binary` node.  The span is the union of both sides. -/
def combine (lhs : Expression) (op : BinaryOp) (rhs : Expression) : Except Fatal Expression :=
  let sp : ByteSpan := { start := lhs.span.start, stop := rhs.span.stop }
  if op = .access then
    match rhs.kind with
    | .literal (.mk (.ident i) _) => .ok (.mk (.fieldAccess lhs i) sp)
    | .fnCall segPath exprs =>
      match segPath.segments with
      | [] => .error (.panicked "remove index out of bounds")
      | seg :: _ => .ok (.mk (.methodCall seg (lhs :: exprs)) sp)
    | _ => .error (.panicked "error here")
  else
    .ok (.mk (.binary lhs op rhs) sp)

mutual

/-- `Parser::parse_type` (src/parser.rs lines 222-239): dispatch on the
lookahead to a path type or an array type; the node's span runs from the first
token to `self.peek()?.span.end()` — the end of the token *after* the type. -/
def parseType (fuel : Nat) (ts : List Token) : Except Fatal (Ty × List Token) :=
  match fuel with
  | 0 => .error .outOfFuel
  | fuel + 1 =>
    match peek ts with
    | .error e => .error e
    | .ok (pk, _) =>
      let kindRes : Except Fatal (TypeKind × List Token) :=
        match pk.kind with
        | .ident | .pathSeparator =>
          match parsePath fuel ts with
          | .error e => .error e
          | .ok (p, ts₁) => .ok (.path p, ts₁)
        | .lbracket => parseArrayTy fuel ts
        | _ => .error (.parseError (.invalidToken pk none))
      match kindRes with
      | .error e => .error e
      | .ok (kind, ts₁) =>
        match peek ts₁ with
        | .error e => .error e
        | .ok (pk₂, _) =>
          .ok (.mk { start := pk.span.start, stop := pk₂.span.stop } kind, ts₁)

/-- `Parser::parse_array_ty` (src/parser.rs lines 241-252): `[`, element type,
`;`, integer length.  A negative length is the distinct `InvalidArraySize`
error carrying the value; otherwise `len as usize` is the count.  The `as
usize` cast truncates to the pointer width; we fix the common 64-bit target,
so a non-negative `i128` becomes `len mod 2 ^ 64`.  Note the source never eats
the closing `]`. -/
def parseArrayTy (fuel : Nat) (ts : List Token) : Except Fatal (TypeKind × List Token) :=
  match fuel with
  | 0 => .error .outOfFuel
  | fuel + 1 =>
    match eat .lbracket ts with
    | .error e => .error e
    | .ok (_, ts₁) =>
      match parseType fuel ts₁ with
      | .error e => .error e
      | .ok (ty, ts₂) =>
        match eat .semicolon ts₂ with
        | .error e => .error e
        | .ok (_, ts₃) =>
          match parseIntegerLiteral fuel ts₃ with
          | .error e => .error e
          | .ok (len, ts₄) =>
            if len < 0 then
              .error (.parseError (.invalidArraySize len))
            else
              .ok (.array ty (len.toNat % 2 ^ 64), ts₄)

/-- `Parser::parse_integer_literal` (src/parser.rs lines 301-308): a literal
that must be an `Int`, else `ExpectedIntegerLit` carrying the actual kind. -/
def parseIntegerLiteral (fuel : Nat) (ts : List Token) : Except Fatal (Int × List Token) :=
  match fuel with
  | 0 => .error .outOfFuel
  | fuel + 1 =>
    match parseLiteral fuel ts with
    | .error e => .error e
    | .ok (lit, ts₁) =>
      match lit.kind with
      | .int v => .ok (v, ts₁)
      | k => .error (.parseError (.expectedIntegerLit k))

/-- `Parser::parse_literal` (src/parser.rs lines 310-363): dispatch on the
lookahead.  Integer literals go through `i128::from_str_radix` with the radix
of their kind, hex/octal/binary with their two-character prefix stripped
first; a conversion failure is the `Result::unwrap` panic.  Raw strings are
stripped of their delimiters and interned.  `[` starts an array literal, a
bare identifier becomes an identifier literal, anything else is
`UnexpectedToken`. -/
def parseLiteral (fuel : Nat) (ts : List Token) : Except Fatal (Literal × List Token) :=
  match fuel with
  | 0 => .error .outOfFuel
  | fuel + 1 =>
    match peek ts with
    | .error e => .error e
    | .ok (pk, _) =>
      match pk.kind with
      | .decLit =>
        match eat .decLit ts with
        | .error e => .error e
        | .ok (t, ts₁) =>
          match i128FromStrRadix t.lit 10 with
          | some v => .ok (.mk (.int v) pk.span, ts₁)
          | none => .error (.panicked "unwrap")
      | .hexLit =>
        match eat .hexLit ts with
        | .error e => .error e
        | .ok (t, ts₁) =>
          match i128FromStrRadix (dropPre2 t.lit) 16 with
          | some v => .ok (.mk (.int v) pk.span, ts₁)
          | none => .error (.panicked "unwrap")
      | .octLit =>
        match eat .octLit ts with
        | .error e => .error e
        | .ok (t, ts₁) =>
          match i128FromStrRadix (dropPre2 t.lit) 8 with
          | some v => .ok (.mk (.int v) pk.span, ts₁)
          | none => .error (.panicked "unwrap")
      | .binLit =>
        match eat .binLit ts with
        | .error e => .error e
        | .ok (t, ts₁) =>
          match i128FromStrRadix (dropPre2 t.lit) 2 with
          | some v => .ok (.mk (.int v) pk.span, ts₁)
          | none => .error (.panicked "unwrap")
      | .floatLit =>
        match eat .floatLit ts with
        | .error e => .error e
        | .ok (t, ts₁) => .ok (.mk (.float t.lit) pk.span, ts₁)
      | .rawStr =>
        match eat .rawStr ts with
        | .error e => .error e
        | .ok (t, ts₁) => .ok (.mk (.rawStr (stripDelims t.lit)) pk.span, ts₁)
      | .lbracket => parseArrayLiteral fuel ts
      | .ident =>
        match parseIdent ts with
        | .error e => .error e
        | .ok (i, ts₁) => .ok (.mk (.ident i) i.span, ts₁)
      | _ => .error (.parseError (.unexpectedToken pk))

/-- `Parser::parse_array_literal` (src/parser.rs lines 281-299): `[`, elements
while the lookahead is not `]`, `]`; the span runs bracket to bracket. -/
def parseArrayLiteral (fuel : Nat) (ts : List Token) : Except Fatal (Literal × List Token) :=
  match fuel with
  | 0 => .error .outOfFuel
  | fuel + 1 =>
    match eat .lbracket ts with
    | .error e => .error e
    | .ok (lb, ts₁) =>
      match parseArrayItems fuel ts₁ with
      | .error e => .error e
      | .ok (items, ts₂) =>
        match eat .rbracket ts₂ with
        | .error e => .error e
        | .ok (rb, ts₃) =>
          .ok (.mk (.array items) { start := lb.span.start, stop := rb.span.stop }, ts₃)

/-- The element loop of `parse_array_literal` (src/parser.rs lines 285-291):
the closing `]` is checked *before* any element is demanded; after an element,
a comma is eaten unless `]` follows directly. -/
def parseArrayItems (fuel : Nat) (ts : List Token) :
    Except Fatal (List Expression × List Token) :=
  match fuel with
  | 0 => .error .outOfFuel
  | fuel + 1 =>
    match peek ts with
    | .error e => .error e
    | .ok (pk, _) =>
      if pk.kind = .rbracket then
        .ok ([], ts)
      else
        match parseExpression fuel ts with
        | .error e => .error e
        | .ok (e, ts₁) =>
          match peek ts₁ with
          | .error er => .error er
          | .ok (pk₂, _) =>
            let afterComma : Except Fatal (List Token) :=
              if pk₂.kind = .rbracket then .ok ts₁
              else
                match eat .comma ts₁ with
                | .error er => .error er
                | .ok (_, ts₂) => .ok ts₂
            match afterComma with
            | .error er => .error er
            | .ok ts₂ =>
              match parseArrayItems fuel ts₂ with
              | .error er => .error er
              | .ok (rest, ts₃) => .ok (e :: rest, ts₃)

/-- `Parser::parse_expression` (src/parser.rs lines 365-368): one primary,
then the precedence-climbing fold with minimum precedence 0. -/
def parseExpression (fuel : Nat) (ts : List Token) : Except Fatal (Expression × List Token) :=
  match fuel with
  | 0 => .error .outOfFuel
  | fuel + 1 =>
    match parsePrimary fuel ts with
    | .error e => .error e
    | .ok (prim, ts₁) => parseInnerExpression fuel prim 0 ts₁

/-- `Parser::parse_inner_expression` (src/parser.rs lines 370-427): while the
lookahead is a binary operator of precedence at least `minPrec`, consume it,
parse one primary right-hand side, absorb strictly-higher-precedence suffixes
into it (`climbHigher`), and fold both sides with `combine`.  The initial
`self.peek()?` propagates a cursor error even when no operator follows. -/
def parseInnerExpression (fuel : Nat) (lhs : Expression) (minPrec : Nat) (ts : List Token) :
    Except Fatal (Expression × List Token) :=
  match fuel with
  | 0 => .error .outOfFuel
  | fuel + 1 =>
    match peek ts with
    | .error e => .error e
    | .ok (pk, _) =>
      match binaryOpOfToken pk with
      | some op₀ =>
        if minPrec ≤ op₀.precedence then
          match next ts with
          | .error e => .error e
          | .ok (opTok, ts₁) =>
            match binaryOpOfToken opTok with
            | none => .error (.panicked "unwrap")
            | some op =>
              match parsePrimary fuel ts₁ with
              | .error e => .error e
              | .ok (rhs₀, ts₂) =>
                match climbHigher fuel op.precedence rhs₀ ts₂ with
                | .error e => .error e
                | .ok (rhs, ts₃) =>
                  match combine lhs op rhs with
                  | .error e => .error e
                  | .ok (lhs') => parseInnerExpression fuel lhs' minPrec ts₃
        else
          .ok (lhs, ts)
      | none => .ok (lhs, ts)

/-- The inner `while let` of `parse_inner_expression` (src/parser.rs lines
386-392): while the lookahead operator's precedence strictly exceeds the
just-consumed operator's, recursively fold it into the right-hand side. -/
def climbHigher (fuel : Nat) (opPrec : Nat) (rhs : Expression) (ts : List Token) :
    Except Fatal (Expression × List Token) :=
  match fuel with
  | 0 => .error .outOfFuel
  | fuel + 1 =>
    match peek ts with
    | .error e => .error e
    | .ok (pk, _) =>
      match binaryOpOfToken pk with
      | some op₂ =>
        if opPrec < op₂.precedence then
          match parseInnerExpression fuel rhs op₂.precedence ts with
          | .error e => .error e
          | .ok (rhs', ts₁) => climbHigher fuel opPrec rhs' ts₁
        else
          .ok (rhs, ts)
      | none => .ok (rhs, ts)

/-- `Parser::parse_primary` (src/parser.rs lines 429-498): an identifier
followed by `(` is a call on a one-segment path; a bare identifier is an
identifier literal; literal tokens go to `parse_literal`; `-`/not start a
unary whose operand re-enters `parse_expression`; `(` returns the inner
expression verbatim after eating `)`; anything else is `unimplemented!()`. -/
def parsePrimary (fuel : Nat) (ts : List Token) : Except Fatal (Expression × List Token) :=
  match fuel with
  | 0 => .error .outOfFuel
  | fuel + 1 =>
    match peek ts with
    | .error e => .error e
    | .ok (pk, _) =>
      match pk.kind with
      | .ident =>
        match parseIdent ts with
        | .error e => .error e
        | .ok (i, ts₁) =>
          match peek ts₁ with
          | .error e => .error e
          | .ok (pk₂, _) =>
            if pk₂.kind = .lparen then
              match eat .lparen ts₁ with
              | .error e => .error e
              | .ok (_, ts₂) =>
                match parseExprList fuel .rparen ts₂ with
                | .error e => .error e
                | .ok (list, ts₃) =>
                  match eat .rparen ts₃ with
                  | .error e => .error e
                  | .ok (rp, ts₄) =>
                    .ok (.mk (.fnCall { span := i.span, segments := [{ ident := i }] } list)
                          { start := i.span.start, stop := rp.span.stop }, ts₄)
            else
              .ok (.mk (.literal (.mk (.ident i) i.span)) i.span, ts₁)
      | .lbracket | .decLit | .hexLit | .octLit | .binLit | .floatLit | .rawStr =>
        match parseLiteral fuel ts with
        | .error e => .error e
        | .ok (lit, ts₁) => .ok (.mk (.literal lit) lit.span, ts₁)
      | .minus | .not =>
        match next ts with
        | .error e => .error e
        | .ok (t, ts₁) =>
          match unaryOpOfToken t with
          | none => .error (.panicked "unwrap")
          | some uo =>
            match parseExpression fuel ts₁ with
            | .error e => .error e
            | .ok (rhs, ts₂) =>
              .ok (.mk (.unary uo rhs) { start := t.span.start, stop := rhs.span.stop }, ts₂)
      | .lparen =>
        match next ts with
        | .error e => .error e
        | .ok (_, ts₁) =>
          match parseExpression fuel ts₁ with
          | .error e => .error e
          | .ok (e, ts₂) =>
            match eat .rparen ts₂ with
            | .error er => .error er
            | .ok (_, ts₃) => .ok (e, ts₃)
      | _ => .error (.panicked "not implemented")

/-- `Parser::parse_expr_list` (src/parser.rs lines 500-523): `loop` that
*first* parses one expression, then checks for a comma (with trailing-comma
tolerance against `closing`) or for `closing`; any other lookahead loops
straight into the next expression. -/
def parseExprList (fuel : Nat) (closing : TokenKind) (ts : List Token) :
    Except Fatal (List Expression × List Token) :=
  match fuel with
  | 0 => .error .outOfFuel
  | fuel + 1 =>
    match parseExpression fuel ts with
    | .error e => .error e
    | .ok (e, ts₁) =>
      match peek ts₁ with
      | .error er => .error er
      | .ok (pk, _) =>
        if pk.kind = .comma then
          match eat .comma ts₁ with
          | .error er => .error er
          | .ok (_, ts₂) =>
            match peek ts₂ with
            | .error er => .error er
            | .ok (pk₂, _) =>
              if pk₂.kind = closing then
                .ok ([e], ts₂)
              else
                match parseExprList fuel closing ts₂ with
                | .error er => .error er
                | .ok (rest, ts₃) => .ok (e :: rest, ts₃)
        else if pk.kind = closing then
          .ok ([e], ts₁)
        else
          match parseExprList fuel closing ts₁ with
          | .error er => .error er
          | .ok (rest, ts₃) => .ok (e :: rest, ts₃)

end

/-- `Parser::parse_named_parameter` (src/parser.rs lines 111-123):
`identifier : type`, spanning both. -/
def parseNamedParameter (fuel : Nat) (ts : List Token) :
    Except Fatal (ParameterDecl × List Token) :=
  match parseIdent ts with
  | .error e => .error e
  | .ok (i, ts₁) =>
    match eat .colon ts₁ with
    | .error e => .error e
    | .ok (_, ts₂) =>
      match parseType fuel ts₂ with
      | .error e => .error e
      | .ok (ty, ts₃) =>
        .ok ({ ident := i, ty := ty,
               span := { start := i.span.start, stop := ty.span.stop } }, ts₃)

/-- `Parser::parse_variable_decl` (src/parser.rs lines 132-154): `let`,
identifier, optional `: type`, `=`, expression, `;`; the span runs `let`
through the semicolon. -/
def parseVariableDecl (fuel : Nat) (ts : List Token) :
    Except Fatal (StatementDecl × List Token) :=
  match eat .letKw ts with
  | .error e => .error e
  | .ok (l, ts₁) =>
    match parseIdent ts₁ with
    | .error e => .error e
    | .ok (i, ts₂) =>
      let tyRes : Except Fatal (Option Ty × List Token) :=
        match peek ts₂ with
        | .error e => .error e
        | .ok (pk, _) =>
          if pk.kind = .colon then
            match eat .colon ts₂ with
            | .error e => .error e
            | .ok (_, ts₃) =>
              match parseType fuel ts₃ with
              | .error e => .error e
              | .ok (ty, ts₄) => .ok (some ty, ts₄)
          else
            .ok (none, ts₂)
      match tyRes with
      | .error e => .error e
      | .ok (ty, ts₃) =>
        match eat .assign ts₃ with
        | .error e => .error e
        | .ok (_, ts₄) =>
          match parseExpression fuel ts₄ with
          | .error e => .error e
          | .ok (expr, ts₅) =>
            match eat .semicolon ts₅ with
            | .error e => .error e
            | .ok (s, ts₆) =>
              .ok (.varDecl { ident := i, ty := ty, value := expr,
                              span := { start := l.span.start, stop := s.span.stop } }, ts₆)

/-- `Parser::parse_statement` (src/parser.rs lines 125-130): dispatch on the
lookahead; only `let` is implemented, anything else is `unimplemented!()`. -/
def parseStatement (fuel : Nat) (ts : List Token) :
    Except Fatal (StatementDecl × List Token) :=
  match peek ts with
  | .error e => .error e
  | .ok (pk, _) =>
    match pk.kind with
    | .letKw => parseVariableDecl fuel ts
    | _ => .error (.panicked "not implemented")

/-- The parameter loop of `Parser::parse_fn` (src/parser.rs lines 75-81):
while the lookahead is not `)`, one parameter, then an optional comma. -/
def parseFnParams (fuel : Nat) (ts : List Token) :
    Except Fatal (List ParameterDecl × List Token) :=
  match fuel with
  | 0 => .error .outOfFuel
  | fuel + 1 =>
    match peek ts with
    | .error e => .error e
    | .ok (pk, _) =>
      if pk.kind = .rparen then
        .ok ([], ts)
      else
        match parseNamedParameter fuel ts with
        | .error e => .error e
        | .ok (p, ts₁) =>
          match peek ts₁ with
          | .error e => .error e
          | .ok (pk₂, _) =>
            let afterComma : Except Fatal (List Token) :=
              if pk₂.kind = .comma then
                match eat .comma ts₁ with
                | .error e => .error e
                | .ok (_, ts₂) => .ok ts₂
              else
                .ok ts₁
            match afterComma with
            | .error e => .error e
            | .ok ts₂ =>
              match parseFnParams fuel ts₂ with
              | .error e => .error e
              | .ok (ps, ts₃) => .ok (p :: ps, ts₃)

/-- The statement loop of `Parser::parse_fn` (src/parser.rs lines 96-98):
statements until the lookahead is `}`. -/
def parseFnStatements (fuel : Nat) (ts : List Token) :
    Except Fatal (List StatementDecl × List Token) :=
  match fuel with
  | 0 => .error .outOfFuel
  | fuel + 1 =>
    match peek ts with
    | .error e => .error e
    | .ok (pk, _) =>
      if pk.kind = .rbrace then
        .ok ([], ts)
      else
        match parseStatement fuel ts with
        | .error e => .error e
        | .ok (s, ts₁) =>
          match parseFnStatements fuel ts₁ with
          | .error e => .error e
          | .ok (ss, ts₂) => .ok (s :: ss, ts₂)

/-- `Parser::parse_fn` (src/parser.rs lines 68-109): `fn`, identifier,
parenthesized parameters, optional `-> type`, braced statements; the span runs
from the `fn` keyword to the closing brace. -/
def parseFn (fuel : Nat) (ts : List Token) : Except Fatal (FnDecl × List Token) :=
  match eat .fn ts with
  | .error e => .error e
  | .ok (fnTok, ts₁) =>
    match parseIdent ts₁ with
    | .error e => .error e
    | .ok (i, ts₂) =>
      match eat .lparen ts₂ with
      | .error e => .error e
      | .ok (_, ts₃) =>
        match parseFnParams fuel ts₃ with
        | .error e => .error e
        | .ok (parameters, ts₄) =>
          match eat .rparen ts₄ with
          | .error e => .error e
          | .ok (_, ts₅) =>
            let retRes : Except Fatal (Option Ty × List Token) :=
              match peek ts₅ with
              | .error e => .error e
              | .ok (pk, _) =>
                if pk.kind = .arrow then
                  match eat .arrow ts₅ with
                  | .error e => .error e
                  | .ok (_, ts₆) =>
                    match parseType fuel ts₆ with
                    | .error e => .error e
                    | .ok (ty, ts₇) => .ok (some ty, ts₇)
                else
                  .ok (none, ts₅)
            match retRes with
            | .error e => .error e
            | .ok (ret, ts₆) =>
              match eat .lbrace ts₆ with
              | .error e => .error e
              | .ok (_, ts₇) =>
                match parseFnStatements fuel ts₇ with
                | .error e => .error e
                | .ok (statements, ts₈) =>
                  match eat .rbrace ts₈ with
                  | .error e => .error e
                  | .ok (rb, ts₉) =>
                    .ok ({ ident := i, parameters := parameters, ret := ret,
                           statements := statements,
                           span := { start := fnTok.span.start, stop := rb.span.stop } }, ts₉)

/-- The field loop of `Parser::parse_struct` (src/parser.rs lines 179-209): an
identifier starts `identifier : type` with an optional trailing comma; `}`
ends the loop; anything else is an `InvalidToken` error carrying the
lookahead.  A field's span runs from its identifier to its type's span end. -/
def parseFields (fuel : Nat) (ts : List Token) :
    Except Fatal (List FieldDecl × List Token) :=
  match fuel with
  | 0 => .error .outOfFuel
  | fuel + 1 =>
    match peek ts with
    | .error e => .error e
    | .ok (pk, _) =>
      match pk.kind with
      | .ident =>
        match parseIdent ts with
        | .error e => .error e
        | .ok (i, ts₁) =>
          match eat .colon ts₁ with
          | .error e => .error e
          | .ok (_, ts₂) =>
            match parseType fuel ts₂ with
            | .error e => .error e
            | .ok (fieldType, ts₃) =>
              match peek ts₃ with
              | .error e => .error e
              | .ok (pk₂, _) =>
                let afterComma : Except Fatal (List Token) :=
                  if pk₂.kind = .comma then
                    match eat .comma ts₃ with
                    | .error e => .error e
                    | .ok (_, ts₄) => .ok ts₄
                  else
                    .ok ts₃
                match afterComma with
                | .error e => .error e
                | .ok ts₄ =>
                  match parseFields fuel ts₄ with
                  | .error e => .error e
                  | .ok (rest, ts₅) =>
                    .ok ({ ident := i, field_type := fieldType,
                           span := { start := i.span.start, stop := fieldType.span.stop } }
                          :: rest, ts₅)
      | .rbrace => .ok ([], ts)
      | _ => .error (.parseError (.invalidToken pk none))

/-- `Parser::parse_struct` (src/parser.rs lines 156-177): `struct`,
identifier, `{`, fields — entered only when the lookahead is an identifier,
any other lookahead being an `InvalidToken` error — then `}`; the span runs
keyword to closing brace. -/
def parseStruct (fuel : Nat) (ts : List Token) :
    Except Fatal (StructDecl × List Token) :=
  match eat .struct ts with
  | .error e => .error e
  | .ok (structTok, ts₁) =>
    match parseIdent ts₁ with
    | .error e => .error e
    | .ok (i, ts₂) =>
      match eat .lbrace ts₂ with
      | .error e => .error e
      | .ok (_, ts₃) =>
        match peek ts₃ with
        | .error e => .error e
        | .ok (pk, _) =>
          let fieldsRes : Except Fatal (List FieldDecl × List Token) :=
            if pk.kind = .ident then
              parseFields fuel ts₃
            else
              .error (.parseError (.invalidToken pk none))
          match fieldsRes with
          | .error e => .error e
          | .ok (fields, ts₄) =>
            match eat .rbrace ts₄ with
            | .error e => .error e
            | .ok (rb, ts₅) =>
              .ok ({ ident := i, fields := fields,
                     span := { start := structTok.span.start, stop := rb.span.stop } }, ts₅)

/-- `Parser::parse` (src/parser.rs lines 39-66): the top-level declaration
loop.  An end-of-stream-flavored `InvalidToken` from `peek` exactly at the
point a new declaration is expected is the normal stop; `struct` and `fn`
dispatch to their declaration parsers; any other token is an `InvalidToken`
error carrying it.  The imperative accumulator is rendered as consing each
declaration onto the parse of the rest; any error aborts the whole parse. -/
def parse (fuel : Nat) (ts : List Token) : Except Fatal (List Decls × List Token) :=
  match fuel with
  | 0 => .error .outOfFuel
  | fuel + 1 =>
    match peek ts with
    | .error (.parseError (.invalidToken t k)) =>
      if t.kind = .eof then .ok ([], ts) else .error (.parseError (.invalidToken t k))
    | .error e => .error e
    | .ok (pk, _) =>
      match pk.kind with
      | .struct =>
        match parseStruct fuel ts with
        | .error e => .error e
        | .ok (d, ts₁) =>
          match parse fuel ts₁ with
          | .error e => .error e
          | .ok (ds, ts₂) => .ok (.struct d :: ds, ts₂)
      | .fn =>
        match parseFn fuel ts with
        | .error e => .error e
        | .ok (d, ts₁) =>
          match parse fuel ts₁ with
          | .error e => .error e
          | .ok (ds, ts₂) => .ok (.fn d :: ds, ts₂)
      | _ => .error (.parseError (.invalidToken pk none))

/-! ## Support for the theorems: erasing source positions, token and node
builders, and the mathematical value of a digit string. -/

/-- A path with every source position erased; used to compare parses of
sources that differ only in token placement. -/
def erasePathSpans (p : Path) : Path :=
  { span := { start := 0, stop := 0 },
    segments := p.segments.map fun s =>
      { ident := { span := { start := 0, stop := 0 }, id := s.ident.id } } }

mutual
/-- A type with every source position erased. -/
def eraseTySpans : Ty → Ty
  | .mk _ k => .mk { start := 0, stop := 0 } (eraseTypeKindSpans k)
/-- A type kind with every source position erased. -/
def eraseTypeKindSpans : TypeKind → TypeKind
  | .path p => .path (erasePathSpans p)
  | .array t n => .array (eraseTySpans t) n
end

/-- A field declaration with every source position erased. -/
def eraseFieldSpans (f : FieldDecl) : FieldDecl :=
  { ident := { span := { start := 0, stop := 0 }, id := f.ident.id },
    field_type := eraseTySpans f.field_type,
    span := { start := 0, stop := 0 } }

/-- A struct declaration with every source position erased. -/
def eraseStructSpans (d : StructDecl) : StructDecl :=
  { ident := { span := { start := 0, stop := 0 }, id := d.ident.id },
    fields := d.fields.map eraseFieldSpans,
    span := { start := 0, stop := 0 } }

/-- An identifier token. -/
def identTok (n : String) (sp : ByteSpan) : Token :=
  { kind := .ident, lit := n, span := sp }

/-- A punctuation or operator token.  The parser dispatches on kinds alone
for these, so the slice is irrelevant and left empty. -/
def puncTok (k : TokenKind) (sp : ByteSpan) : Token :=
  { kind := k, lit := "", span := sp }

/-- The expression the parser produces for a bare identifier in primary
position. -/
def identExpr (n : String) (sp : ByteSpan) : Expression :=
  .mk (.literal (.mk (.ident { span := sp, id := n }) sp)) sp

/-- A binary node spanning its operands, as `parse_inner_expression` builds
them. -/
def binExpr (l : Expression) (op : BinaryOp) (r : Expression) : Expression :=
  .mk (.binary l op r) { start := l.span.start, stop := r.span.stop }

/-- A field-access node spanning base and field, as `parse_inner_expression`
builds them. -/
def accessExpr (l : Expression) (i : Ident) : Expression :=
  .mk (.fieldAccess l i) { start := l.span.start, stop := i.span.stop }

/-- The mathematical value of a digit list in a radix, most significant digit
first: digit `dᵢ` of a length-`n` list contributes `dᵢ · radix ^ (n - 1 - i)`.
This is the specification-side value a numeral denotes, written positionally
and independently of the accumulator loop in `natFromDigits`. -/
def natOfDigits (radix : Nat) : List Nat → Nat
  | [] => 0
  | d :: ds => d * radix ^ ds.length + natOfDigits radix ds

theorem natFromDigits_eq_natOfDigits (radix : Nat) :
    ∀ (cs : List Char) (ds : List Nat) (acc : Nat),
      cs.map (digitValue radix) = ds.map some →
      natFromDigits radix acc cs = some (acc * radix ^ cs.length + natOfDigits radix ds) := by
  intro cs
  induction cs with
  | nil =>
    intro ds acc h
    cases ds with
    | nil => simp [natFromDigits, natOfDigits]
    | cons d ds => simp at h
  | cons c cs ih =>
    intro ds acc h
    cases ds with
    | nil => simp at h
    | cons d ds =>
      simp only [List.map_cons, List.cons.injEq] at h
      obtain ⟨hc, hrest⟩ := h
      have hlen : cs.length = ds.length := by
        have := congrArg List.length hrest
        simpa using this
      simp only [natFromDigits, hc]
      rw [ih ds (acc * radix + d) hrest]
      simp only [natOfDigits, hlen, List.length_cons, Option.some.injEq]
      ring

theorem digitValue_dash (radix : Nat) : digitValue radix '-' = none := rfl

theorem digitValue_plus (radix : Nat) : digitValue radix '+' = none := rfl

theorem i128FromStrRadix_digits (radix : Nat) (s : String) (ds : List Nat)
    (hmap : s.data.map (digitValue radix) = ds.map some)
    (hne : s.data ≠ [])
    (hbound : (natOfDigits radix ds : Int) ≤ i128Max) :
    i128FromStrRadix s radix = some ((natOfDigits radix ds : Int)) := by
  rw [i128FromStrRadix]
  cases hd : s.data with
  | nil => exact absurd hd hne
  | cons c cs =>
    rw [hd] at hmap
    cases ds with
    | nil => simp at hmap
    | cons d ds =>
      simp only [List.map_cons, List.cons.injEq] at hmap
      obtain ⟨hc, hrest⟩ := hmap
      have hcdash : c ≠ '-' := by
        intro h
        rw [h, digitValue_dash] at hc
        cases hc
      have hcplus : c ≠ '+' := by
        intro h
        rw [h, digitValue_plus] at hc
        cases hc
      have hmap' : (c :: cs).map (digitValue radix) = (d :: ds).map some := by
        simp [hc, hrest]
      dsimp only
      rw [if_neg hcdash, if_neg hcplus]
      rw [natFromDigits_eq_natOfDigits radix (c :: cs) (d :: ds) 0 hmap']
      simp only [Nat.zero_mul, Nat.zero_add]
      rw [if_neg (by simp : ¬(c :: cs = []))]
      rw [if_pos hbound]

/-! ## Claim C1: field access and method calls -/

/-- Claim C1, counterexample.  The claim says a method call takes "zero or
more arguments", but `parse_expr_list` (src/parser.rs lines 500-523)
unconditionally parses one expression before looking for the closing token,
so the zero-argument call in the expression `a.f();` sends `parse_primary`
into its `unimplemented!()` arm on `)`: the parse panics instead of producing
a MethodCall. -/
theorem c1_zero_arg_method_call_panics :
    parseExpression 32
        [identTok "a" { start := 0, stop := 1 }, puncTok .dot { start := 1, stop := 2 },
         identTok "f" { start := 2, stop := 3 }, puncTok .lparen { start := 3, stop := 4 },
         puncTok .rparen { start := 4, stop := 5 }, puncTok .semicolon { start := 5, stop := 6 }]
      = .error (.panicked "not implemented") := rfl

/-- Claim C1, amended: for every expression of the form `a.b` with `b` a bare
identifier the parse produces FieldAccess(a, b), and for `a.f(args…)` with
*one* or more arguments it produces a MethodCall whose segment is `f` and
whose arguments are the receiver `a` prepended at index 0 followed by the
written arguments in order.  Stated on `combine`, the access-fold of
`parse_inner_expression`, universally over the already-parsed left-hand side,
and end-to-end on the token streams of `a.b;` and `a.f(x, y);` with arbitrary
identifier names and token spans. -/
theorem c1_field_access_and_method_call :
    (∀ (lhs : Expression) (i : Ident) (sp sp₂ : ByteSpan),
      combine lhs .access (.mk (.literal (.mk (.ident i) sp)) sp₂)
        = .ok (.mk (.fieldAccess lhs i) { start := lhs.span.start, stop := sp₂.stop })) ∧
    (∀ (lhs : Expression) (pspan : ByteSpan) (seg : PathSegment) (rest : List PathSegment)
        (exprs : List Expression) (sp₂ : ByteSpan),
      combine lhs .access (.mk (.fnCall { span := pspan, segments := seg :: rest } exprs) sp₂)
        = .ok (.mk (.methodCall seg (lhs :: exprs))
            { start := lhs.span.start, stop := sp₂.stop })) ∧
    (∀ (na nb : String) (sa s₁ sb ss : ByteSpan),
      parseExpression 32 [identTok na sa, puncTok .dot s₁, identTok nb sb, puncTok .semicolon ss]
        = .ok (accessExpr (identExpr na sa) { span := sb, id := nb }, [puncTok .semicolon ss])) ∧
    (∀ (na nf nx ny : String) (sa s₁ sf s₂ sx s₃ sy s₄ ss : ByteSpan),
      parseExpression 32
          [identTok na sa, puncTok .dot s₁, identTok nf sf, puncTok .lparen s₂,
           identTok nx sx, puncTok .comma s₃, identTok ny sy, puncTok .rparen s₄,
           puncTok .semicolon ss]
        = .ok (.mk (.methodCall { ident := { span := sf, id := nf } }
                [identExpr na sa, identExpr nx sx, identExpr ny sy])
              { start := sa.start, stop := s₄.stop },
            [puncTok .semicolon ss])) := by
  refine ⟨fun lhs i sp sp₂ => rfl, fun lhs pspan seg rest exprs sp₂ => rfl,
    fun na nb sa s₁ sb ss => rfl, fun na nf nx ny sa s₁ sf s₂ sx s₃ sy s₄ ss => rfl⟩

/-! ## Claim C2: binary-operator precedence, associativity, parentheses -/

/-- Claim C2: multiplication/division bind tighter than addition/subtraction,
member access binds tighter than every arithmetic and comparison operator,
equality/inequality bind loosest, same-precedence operators associate left,
and a parenthesized sub-expression is an atomic operand returned verbatim
(the parse of a parenthesized group is exactly the inner node — no extra
wrapper, and its span excludes the parentheses).  Each conjunct runs the
parser over the canonical token shape for one of these facts, universally
over identifier names and every token span. -/
theorem c2_precedence_and_associativity :
    (∀ (a b c : String) (sa s₁ sb s₂ sc ss : ByteSpan),
      parseExpression 32 [identTok a sa, puncTok .plus s₁, identTok b sb,
          puncTok .star s₂, identTok c sc, puncTok .semicolon ss]
        = .ok (binExpr (identExpr a sa) .add (binExpr (identExpr b sb) .mul (identExpr c sc)),
            [puncTok .semicolon ss])) ∧
    (∀ (a b c : String) (sa s₁ sb s₂ sc ss : ByteSpan),
      parseExpression 32 [identTok a sa, puncTok .star s₁, identTok b sb,
          puncTok .plus s₂, identTok c sc, puncTok .semicolon ss]
        = .ok (binExpr (binExpr (identExpr a sa) .mul (identExpr b sb)) .add (identExpr c sc),
            [puncTok .semicolon ss])) ∧
    (∀ (a b c : String) (sa s₁ sb s₂ sc ss : ByteSpan),
      parseExpression 32 [identTok a sa, puncTok .minus s₁, identTok b sb,
          puncTok .slash s₂, identTok c sc, puncTok .semicolon ss]
        = .ok (binExpr (identExpr a sa) .sub (binExpr (identExpr b sb) .div (identExpr c sc)),
            [puncTok .semicolon ss])) ∧
    (∀ (a b c : String) (sa s₁ sb s₂ sc ss : ByteSpan),
      parseExpression 32 [identTok a sa, puncTok .plus s₁, identTok b sb,
          puncTok .minus s₂, identTok c sc, puncTok .semicolon ss]
        = .ok (binExpr (binExpr (identExpr a sa) .add (identExpr b sb)) .sub (identExpr c sc),
            [puncTok .semicolon ss])) ∧
    (∀ (a b c : String) (sa s₁ sb s₂ sc ss : ByteSpan),
      parseExpression 32 [identTok a sa, puncTok .star s₁, identTok b sb,
          puncTok .slash s₂, identTok c sc, puncTok .semicolon ss]
        = .ok (binExpr (binExpr (identExpr a sa) .mul (identExpr b sb)) .div (identExpr c sc),
            [puncTok .semicolon ss])) ∧
    (∀ (a b c : String) (sa s₁ sb s₂ sc ss : ByteSpan),
      parseExpression 32 [identTok a sa, puncTok .lt s₁, identTok b sb,
          puncTok .gt s₂, identTok c sc, puncTok .semicolon ss]
        = .ok (binExpr (binExpr (identExpr a sa) .lt (identExpr b sb)) .gt (identExpr c sc),
            [puncTok .semicolon ss])) ∧
    (∀ (a b c : String) (sa s₁ sb s₂ sc ss : ByteSpan),
      parseExpression 32 [identTok a sa, puncTok .eq s₁, identTok b sb,
          puncTok .neq s₂, identTok c sc, puncTok .semicolon ss]
        = .ok (binExpr (binExpr (identExpr a sa) .eq (identExpr b sb)) .neq (identExpr c sc),
            [puncTok .semicolon ss])) ∧
    (∀ (a b c : String) (sa s₁ sb s₂ sc ss : ByteSpan),
      parseExpression 32 [identTok a sa, puncTok .star s₁, identTok b sb,
          puncTok .dot s₂, identTok c sc, puncTok .semicolon ss]
        = .ok (binExpr (identExpr a sa) .mul (accessExpr (identExpr b sb) { span := sc, id := c }),
            [puncTok .semicolon ss])) ∧
    (∀ (a b c : String) (sa s₁ sb s₂ sc ss : ByteSpan),
      parseExpression 32 [identTok a sa, puncTok .dot s₁, identTok b sb,
          puncTok .star s₂, identTok c sc, puncTok .semicolon ss]
        = .ok (binExpr (accessExpr (identExpr a sa) { span := sb, id := b }) .mul (identExpr c sc),
            [puncTok .semicolon ss])) ∧
    (∀ (a b c : String) (sa s₁ sb s₂ sc ss : ByteSpan),
      parseExpression 32 [identTok a sa, puncTok .lt s₁, identTok b sb,
          puncTok .dot s₂, identTok c sc, puncTok .semicolon ss]
        = .ok (binExpr (identExpr a sa) .lt (accessExpr (identExpr b sb) { span := sc, id := c }),
            [puncTok .semicolon ss])) ∧
    (∀ (a b c : String) (sa s₁ sb s₂ sc ss : ByteSpan),
      parseExpression 32 [identTok a sa, puncTok .eq s₁, identTok b sb,
          puncTok .dot s₂, identTok c sc, puncTok .semicolon ss]
        = .ok (binExpr (identExpr a sa) .eq (accessExpr (identExpr b sb) { span := sc, id := c }),
            [puncTok .semicolon ss])) ∧
    (∀ (a b c : String) (sa s₁ sb s₂ sc ss : ByteSpan),
      parseExpression 32 [identTok a sa, puncTok .eq s₁, identTok b sb,
          puncTok .plus s₂, identTok c sc, puncTok .semicolon ss]
        = .ok (binExpr (identExpr a sa) .eq (binExpr (identExpr b sb) .add (identExpr c sc)),
            [puncTok .semicolon ss])) ∧
    (∀ (a b c : String) (sa s₁ sb s₂ sc ss : ByteSpan),
      parseExpression 32 [identTok a sa, puncTok .eq s₁, identTok b sb,
          puncTok .lt s₂, identTok c sc, puncTok .semicolon ss]
        = .ok (binExpr (identExpr a sa) .eq (binExpr (identExpr b sb) .lt (identExpr c sc)),
            [puncTok .semicolon ss])) ∧
    (∀ (a b c : String) (sa s₁ sb s₂ sc ss : ByteSpan),
      parseExpression 32 [identTok a sa, puncTok .lt s₁, identTok b sb,
          puncTok .eq s₂, identTok c sc, puncTok .semicolon ss]
        = .ok (binExpr (binExpr (identExpr a sa) .lt (identExpr b sb)) .eq (identExpr c sc),
            [puncTok .semicolon ss])) ∧
    (∀ (a : String) (s₀ sa s₁ ss : ByteSpan),
      parseExpression 32 [puncTok .lparen s₀, identTok a sa, puncTok .rparen s₁,
          puncTok .semicolon ss]
        = .ok (identExpr a sa, [puncTok .semicolon ss])) ∧
    (∀ (a b c : String) (s₀ sa s₁ sb s₂ s₃ sc ss : ByteSpan),
      parseExpression 32 [puncTok .lparen s₀, identTok a sa, puncTok .plus s₁,
          identTok b sb, puncTok .rparen s₂, puncTok .star s₃, identTok c sc,
          puncTok .semicolon ss]
        = .ok (binExpr (binExpr (identExpr a sa) .add (identExpr b sb)) .mul (identExpr c sc),
            [puncTok .semicolon ss])) ∧
    (∀ (a b c : String) (sa s₀ s₁ sb s₂ sc s₃ ss : ByteSpan),
      parseExpression 32 [identTok a sa, puncTok .star s₀, puncTok .lparen s₁,
          identTok b sb, puncTok .plus s₂, identTok c sc, puncTok .rparen s₃,
          puncTok .semicolon ss]
        = .ok (binExpr (identExpr a sa) .mul (binExpr (identExpr b sb) .add (identExpr c sc)),
            [puncTok .semicolon ss])) := by
  refine ⟨fun a b c sa s₁ sb s₂ sc ss => rfl, fun a b c sa s₁ sb s₂ sc ss => rfl,
    fun a b c sa s₁ sb s₂ sc ss => rfl, fun a b c sa s₁ sb s₂ sc ss => rfl,
    fun a b c sa s₁ sb s₂ sc ss => rfl, fun a b c sa s₁ sb s₂ sc ss => rfl,
    fun a b c sa s₁ sb s₂ sc ss => rfl, fun a b c sa s₁ sb s₂ sc ss => rfl,
    fun a b c sa s₁ sb s₂ sc ss => rfl, fun a b c sa s₁ sb s₂ sc ss => rfl,
    fun a b c sa s₁ sb s₂ sc ss => rfl, fun a b c sa s₁ sb s₂ sc ss => rfl,
    fun a b c sa s₁ sb s₂ sc ss => rfl, fun a b c sa s₁ sb s₂ sc ss => rfl,
    fun a s₀ sa s₁ ss => rfl, fun a b c s₀ sa s₁ sb s₂ s₃ sc ss => rfl,
    fun a b c sa s₀ s₁ sb s₂ sc s₃ ss => rfl⟩

/-! ## Claim C9: node spans and the type parser -/

/-- Claim C9, evaluated at the failing input.  `parse_type` (src/parser.rs
line 236) computes the node's span end from `self.peek()?.span.end()` — the
token *after* the type — not from the last token consumed for the type.
Parsing the type `i32` occupying bytes 4-7 followed by a semicolon at bytes
7-8 produces a Type whose span is (4, 8), the semicolon's end, where the
claimed discipline demands (4, 7). -/
theorem c9_type_span_uses_following_token :
    parseType 9
        [identTok "i32" { start := 4, stop := 7 },
         puncTok .semicolon { start := 7, stop := 8 },
         puncTok .eof { start := 8, stop := 8 }]
      = .ok (.mk { start := 4, stop := 8 }
            (.path { span := { start := 4, stop := 7 },
                     segments := [{ ident := { span := { start := 4, stop := 7 },
                                               id := "i32" } }] }),
          [puncTok .semicolon { start := 7, stop := 8 },
           puncTok .eof { start := 8, stop := 8 }]) := rfl

/-! ## Claim C10: empty array literals versus call-argument lists -/

/-- Claim C10: the expression `[]` parses to an Array literal with no
elements, because `parse_array_literal`'s loop checks for `]` before
demanding an element (first and third conjuncts), while `parse_expr_list`
parses an expression before any closing-token check, so the zero-argument
call `f()` runs `parse_primary` into `unimplemented!()` on `)` (second
conjunct). -/
theorem c10_empty_array_literal :
    parseExpression 32
        [puncTok .lbracket { start := 0, stop := 1 }, puncTok .rbracket { start := 1, stop := 2 },
         puncTok .semicolon { start := 2, stop := 3 }]
      = .ok (.mk (.literal (.mk (.array []) { start := 0, stop := 2 })) { start := 0, stop := 2 },
          [puncTok .semicolon { start := 2, stop := 3 }]) ∧
    parseExpression 32
        [identTok "f" { start := 0, stop := 1 }, puncTok .lparen { start := 1, stop := 2 },
         puncTok .rparen { start := 2, stop := 3 }, puncTok .semicolon { start := 3, stop := 4 }]
      = .error (.panicked "not implemented") ∧
    (∀ (fuel : Nat) (l : String) (sp : ByteSpan) (rest : List Token),
      parseArrayItems (fuel + 1) ({ kind := .rbracket, lit := l, span := sp } :: rest)
        = .ok ([], { kind := .rbracket, lit := l, span := sp } :: rest)) := by
  exact ⟨rfl, rfl, fun fuel l sp rest => rfl⟩

/-! ## Claim C3: the top-level declaration loop -/

/-- Claim C3: the top-level loop stops with success (the accumulated, possibly
empty declaration sequence) exactly on an end-of-stream token at a point where
a new declaration is expected; a `struct` token there enters struct parsing
and a `fn` token function parsing, each aborting the whole parse with the
first error; any other concrete token is an InvalidToken error carrying that
token, and a lexical-error token likewise surfaces as the InvalidToken error
carrying it. -/
theorem c3_top_level_dispatch :
    (∀ (fuel : Nat) (t : Token) (rest : List Token), t.kind = .eof →
      parse (fuel + 1) (t :: rest) = .ok ([], t :: rest)) ∧
    (∀ (fuel : Nat) (t : Token) (rest : List Token), t.kind = .struct →
      parse (fuel + 1) (t :: rest) =
        (match parseStruct fuel (t :: rest) with
         | .error e => .error e
         | .ok (d, ts₁) =>
           match parse fuel ts₁ with
           | .error e => .error e
           | .ok (ds, ts₂) => .ok (Decls.struct d :: ds, ts₂))) ∧
    (∀ (fuel : Nat) (t : Token) (rest : List Token), t.kind = .fn →
      parse (fuel + 1) (t :: rest) =
        (match parseFn fuel (t :: rest) with
         | .error e => .error e
         | .ok (d, ts₁) =>
           match parse fuel ts₁ with
           | .error e => .error e
           | .ok (ds, ts₂) => .ok (Decls.fn d :: ds, ts₂))) ∧
    (∀ (fuel : Nat) (t : Token) (rest : List Token),
      t.kind ≠ .eof → t.kind ≠ .error → t.kind ≠ .struct → t.kind ≠ .fn →
      parse (fuel + 1) (t :: rest) = .error (.parseError (.invalidToken t none))) ∧
    (∀ (fuel : Nat) (t : Token) (rest : List Token), t.kind = .error →
      parse (fuel + 1) (t :: rest) = .error (.parseError (.invalidToken t none))) := by
  refine ⟨?_, ?_, ?_, ?_, ?_⟩
  · intro fuel t rest h
    simp [parse, peek, next, h]
  · intro fuel t rest h
    simp [parse, peek, next, h]
  · intro fuel t rest h
    simp [parse, peek, next, h]
  · intro fuel t rest h1 h2 h3 h4
    obtain ⟨k, l, sp⟩ := t
    cases k <;> simp_all [parse, peek, next]
  · intro fuel t rest h
    simp [parse, peek, next, h]

/-- Claim C3, witness: the empty program (just the end-of-stream token)
parses to the empty declaration sequence, and a stray comma at top level is
the InvalidToken error carrying that comma. -/
theorem c3_top_level_dispatch_witness :
    parse 1 [puncTok .eof { start := 0, stop := 0 }]
      = .ok ([], [puncTok .eof { start := 0, stop := 0 }]) ∧
    parse 1 [puncTok .comma { start := 0, stop := 1 }]
      = .error (.parseError (.invalidToken (puncTok .comma { start := 0, stop := 1 }) none)) :=
  ⟨c3_top_level_dispatch.1 0 _ [] rfl,
   c3_top_level_dispatch.2.2.2.1 0 _ [] (by decide) (by decide) (by decide) (by decide)⟩

/-! ## Claim C5: empty struct bodies -/

theorem parseFields_ok_ne_nil :
    ∀ (fuel : Nat) (ts u₀ : List Token) (pk : Token) (fs : List FieldDecl) (u : List Token),
      peek ts = .ok (pk, u₀) → pk.kind = .ident →
      parseFields fuel ts = .ok (fs, u) → fs ≠ [] := by
  intro fuel ts u₀ pk fs u hpeek hk h
  cases fuel with
  | zero => simp [parseFields] at h
  | succ fuel =>
    rw [parseFields, hpeek] at h
    dsimp only at h
    rw [hk] at h
    repeat' split at h
    all_goals try simp_all
    all_goals (intro hfs; rw [hfs] at h; simp at h)

theorem parseStruct_ok_fields_ne_nil :
    ∀ (fuel : Nat) (ts : List Token) (d : StructDecl) (u : List Token),
      parseStruct fuel ts = .ok (d, u) → d.fields ≠ [] := by
  intro fuel ts d u h
  rw [parseStruct] at h
  repeat' split at h
  all_goals try simp_all
  rename_i hpeek hpk
  split at h
  · simp at h
  · rename_i x fields ts4 hfields
    split at h
    · simp at h
    · rename_i y rb ts5 hrb
      simp only [Except.ok.injEq, Prod.mk.injEq] at h
      obtain hm := h.1
      subst hm
      exact parseFields_ok_ne_nil fuel _ _ _ fields _ hpeek hpk hfields

/-- Claim C5: a struct declaration with an empty body is a parse error — the
lookahead `}` where the field list's first identifier is required becomes an
InvalidToken error carrying that `}` (first conjunct, over arbitrary names,
spans and trailing tokens) — and no successful struct parse ever carries an
empty field sequence (second conjunct). -/
theorem c5_empty_struct_rejected :
    (∀ (fuel : Nat) (nS : String) (s₁ s₂ s₃ s₄ : ByteSpan) (rest : List Token),
      parseStruct fuel
          (puncTok .struct s₁ :: identTok nS s₂ :: puncTok .lbrace s₃ ::
            puncTok .rbrace s₄ :: rest)
        = .error (.parseError (.invalidToken (puncTok .rbrace s₄) none))) ∧
    (∀ (fuel : Nat) (ts : List Token) (d : StructDecl) (u : List Token),
      parseStruct fuel ts = .ok (d, u) → d.fields ≠ []) :=
  ⟨fun fuel nS s₁ s₂ s₃ s₄ rest => rfl, parseStruct_ok_fields_ne_nil⟩

/-- Claim C5, witness: the one-field struct `struct S { x: T }` parses
successfully, and its field list is nonempty by the second conjunct of the
claim's theorem applied to that concrete parse. -/
theorem c5_empty_struct_rejected_witness :
    parseStruct 20
        [puncTok .struct { start := 0, stop := 6 }, identTok "S" { start := 7, stop := 8 },
         puncTok .lbrace { start := 9, stop := 10 }, identTok "x" { start := 11, stop := 12 },
         puncTok .colon { start := 12, stop := 13 }, identTok "T" { start := 14, stop := 15 },
         puncTok .rbrace { start := 16, stop := 17 }, puncTok .eof { start := 17, stop := 17 }]
      = .ok ({ ident := { span := { start := 7, stop := 8 }, id := "S" },
               fields := [{ ident := { span := { start := 11, stop := 12 }, id := "x" },
                            field_type := .mk { start := 14, stop := 17 }
                              (.path { span := { start := 14, stop := 15 },
                                       segments := [{ ident := { span := { start := 14, stop := 15 },
                                                                 id := "T" } }] }),
                            span := { start := 11, stop := 17 } }],
               span := { start := 0, stop := 17 } },
          [puncTok .eof { start := 17, stop := 17 }]) ∧
    ({ ident := { span := { start := 7, stop := 8 }, id := "S" },
       fields := [{ ident := { span := { start := 11, stop := 12 }, id := "x" },
                    field_type := .mk { start := 14, stop := 17 }
                      (.path { span := { start := 14, stop := 15 },
                               segments := [{ ident := { span := { start := 14, stop := 15 },
                                                         id := "T" } }] }),
                    span := { start := 11, stop := 17 } }],
       span := { start := 0, stop := 17 } } : StructDecl).fields ≠ [] :=
  ⟨rfl, c5_empty_struct_rejected.2 20
    [puncTok .struct { start := 0, stop := 6 }, identTok "S" { start := 7, stop := 8 },
     puncTok .lbrace { start := 9, stop := 10 }, identTok "x" { start := 11, stop := 12 },
     puncTok .colon { start := 12, stop := 13 }, identTok "T" { start := 14, stop := 15 },
     puncTok .rbrace { start := 16, stop := 17 }, puncTok .eof { start := 17, stop := 17 }]
    _ [puncTok .eof { start := 17, stop := 17 }] rfl⟩

/-! ## Claim C7: paths have at least one segment -/

/-- Claim C7, counterexample.  A path separator followed by a non-identifier
in type position parses zero segments, and `parse_path` then evaluates
`segments[0]` on an empty Vec (src/parser.rs line 266): the outcome is a Rust
index-out-of-bounds panic, not a parse error returned to the caller. -/
theorem c7_zero_segment_path_panics :
    parseType 9
        [{ kind := .pathSeparator, lit := "::", span := { start := 0, stop := 2 } },
         puncTok .semicolon { start := 2, stop := 3 },
         puncTok .eof { start := 3, stop := 3 }]
      = .error (.panicked "index out of bounds") := rfl

theorem parsePath_ok_segments_ne_nil :
    ∀ (fuel : Nat) (ts : List Token) (p : Path) (u : List Token),
      parsePath fuel ts = .ok (p, u) → p.segments ≠ [] := by
  intro fuel ts p u h
  rw [parsePath] at h
  repeat' split at h
  all_goals try simp_all
  all_goals
    (split at h
     · simp at h
     · split at h
       · simp at h
       · (intro hp; simp only [Except.ok.injEq, Prod.mk.injEq] at h; rw [← h.1] at hp; simp at hp))

theorem parsePath_sep_nonident_panics :
    ∀ (fuel : Nat) (l : String) (sp : ByteSpan) (t : Token) (rest : List Token),
      t.kind ≠ .ident → t.kind ≠ .eof → t.kind ≠ .error →
      parsePath (fuel + 1) ({ kind := .pathSeparator, lit := l, span := sp } :: t :: rest)
        = .error (.panicked "index out of bounds") := by
  intro fuel l sp t rest h1 h2 h3
  simp [parsePath, parsePathSegments, peek, next, eat, h1, h2, h3]

/-- Claim C7, amended: every successfully parsed Path has at least one
segment, but when the path production parses zero identifier segments — a
path separator followed by a concrete non-identifier token — the parser
panics with an index-out-of-bounds on `segments[0]` instead of returning a
parse error (end-of-stream or a lexical-error token at that point instead
surfaces as the cursor's InvalidToken parse error). -/
theorem c7_path_segments_amended :
    (∀ (fuel : Nat) (ts : List Token) (p : Path) (u : List Token),
      parsePath fuel ts = .ok (p, u) → p.segments ≠ []) ∧
    (∀ (fuel : Nat) (l : String) (sp : ByteSpan) (t : Token) (rest : List Token),
      t.kind ≠ .ident → t.kind ≠ .eof → t.kind ≠ .error →
      parsePath (fuel + 1) ({ kind := .pathSeparator, lit := l, span := sp } :: t :: rest)
        = .error (.panicked "index out of bounds")) :=
  ⟨parsePath_ok_segments_ne_nil, parsePath_sep_nonident_panics⟩

/-- Claim C7, witness: the one-segment path `a` parses successfully and its
segment list is nonempty by the first conjunct; `::` followed by a semicolon
panics by the second conjunct. -/
theorem c7_path_segments_amended_witness :
    ({ span := { start := 0, stop := 1 },
       segments := [{ ident := { span := { start := 0, stop := 1 }, id := "a" } }] }
        : Path).segments ≠ [] ∧
    parsePath 3
        [{ kind := .pathSeparator, lit := "::", span := { start := 0, stop := 2 } },
         puncTok .semicolon { start := 2, stop := 3 }]
      = .error (.panicked "index out of bounds") :=
  ⟨c7_path_segments_amended.1 5
      [identTok "a" { start := 0, stop := 1 }, puncTok .semicolon { start := 1, stop := 2 }]
      _ [puncTok .semicolon { start := 1, stop := 2 }] rfl,
   c7_path_segments_amended.2 2 "::" { start := 0, stop := 2 }
      (puncTok .semicolon { start := 2, stop := 3 }) [] (by decide) (by decide) (by decide)⟩

/-! ## Claim C6: commas between struct fields -/

/-- Claim C6: in a struct's field list a trailing comma before `}` is allowed
and yields the same declaration as the version without it (the same
declaration up to source positions, which necessarily shift when a comma
token is inserted: the first two conjuncts parse both variants of
`struct S { x: T }` successfully, and the third equates the two results after
erasing source positions, for arbitrary names and arbitrary, unrelated span
assignments).  Omitting the comma between two fields, as in
`struct S { x: T y: U }`, is a parse error: the path-type parser absorbs the
juxtaposed identifiers `T y` as path segments and the field loop then fails
with an InvalidToken error carrying the colon after `y` (fourth conjunct). -/
theorem c6_field_comma_rules :
    (∀ (fuel : Nat) (nS nx nT : String) (s₁ s₂ s₃ s₄ s₅ s₆ s₇ s₈ : ByteSpan)
        (rest : List Token),
      parseStruct (fuel + 4)
          (puncTok .struct s₁ :: identTok nS s₂ :: puncTok .lbrace s₃ :: identTok nx s₄ ::
            puncTok .colon s₅ :: identTok nT s₆ :: puncTok .comma s₇ :: puncTok .rbrace s₈ ::
            rest)
        = .ok ({ ident := { span := s₂, id := nS },
                 fields := [{ ident := { span := s₄, id := nx },
                              field_type := .mk { start := s₆.start, stop := s₇.stop }
                                (.path { span := s₆,
                                         segments := [{ ident := { span := s₆, id := nT } }] }),
                              span := { start := s₄.start, stop := s₇.stop } }],
                 span := { start := s₁.start, stop := s₈.stop } }, rest)) ∧
    (∀ (fuel : Nat) (nS nx nT : String) (s₁ s₂ s₃ s₄ s₅ s₆ s₇ : ByteSpan)
        (rest : List Token),
      parseStruct (fuel + 4)
          (puncTok .struct s₁ :: identTok nS s₂ :: puncTok .lbrace s₃ :: identTok nx s₄ ::
            puncTok .colon s₅ :: identTok nT s₆ :: puncTok .rbrace s₇ :: rest)
        = .ok ({ ident := { span := s₂, id := nS },
                 fields := [{ ident := { span := s₄, id := nx },
                              field_type := .mk { start := s₆.start, stop := s₇.stop }
                                (.path { span := s₆,
                                         segments := [{ ident := { span := s₆, id := nT } }] }),
                              span := { start := s₄.start, stop := s₇.stop } }],
                 span := { start := s₁.start, stop := s₇.stop } }, rest)) ∧
    (∀ (nS nx nT : String) (s₁ s₂ s₃ s₄ s₅ s₆ s₇ u₁ u₂ u₃ u₄ u₅ u₆ u₇ u₈ : ByteSpan),
      eraseStructSpans
          { ident := { span := s₂, id := nS },
            fields := [{ ident := { span := s₄, id := nx },
                         field_type := .mk { start := s₆.start, stop := s₇.stop }
                           (.path { span := s₆,
                                    segments := [{ ident := { span := s₆, id := nT } }] }),
                         span := { start := s₄.start, stop := s₇.stop } }],
            span := { start := s₁.start, stop := s₇.stop } }
        = eraseStructSpans
          { ident := { span := u₂, id := nS },
            fields := [{ ident := { span := u₄, id := nx },
                         field_type := .mk { start := u₆.start, stop := u₇.stop }
                           (.path { span := u₆,
                                    segments := [{ ident := { span := u₆, id := nT } }] }),
                         span := { start := u₄.start, stop := u₇.stop } }],
            span := { start := u₁.start, stop := u₈.stop } }) ∧
    (∀ (fuel : Nat) (nS nx nT ny nU : String)
        (s₁ s₂ s₃ s₄ s₅ s₆ s₇ s₈ s₉ s₁₀ : ByteSpan) (rest : List Token),
      parseStruct (fuel + 5)
          (puncTok .struct s₁ :: identTok nS s₂ :: puncTok .lbrace s₃ :: identTok nx s₄ ::
            puncTok .colon s₅ :: identTok nT s₆ :: identTok ny s₇ :: puncTok .colon s₈ ::
            identTok nU s₉ :: puncTok .rbrace s₁₀ :: rest)
        = .error (.parseError (.invalidToken (puncTok .colon s₈) none))) := by
  refine ⟨fun fuel nS nx nT s₁ s₂ s₃ s₄ s₅ s₆ s₇ s₈ rest => rfl,
    fun fuel nS nx nT s₁ s₂ s₃ s₄ s₅ s₆ s₇ rest => rfl,
    fun nS nx nT s₁ s₂ s₃ s₄ s₅ s₆ s₇ u₁ u₂ u₃ u₄ u₅ u₆ u₇ u₈ => rfl,
    fun fuel nS nx nT ny nU s₁ s₂ s₃ s₄ s₅ s₆ s₇ s₈ s₉ s₁₀ rest => rfl⟩

/-! ## Claim C4: array type lengths -/

/-- Claim C4, counterexample.  The claim asserts that every non-negative
length literal yields an Array type whose element count equals the literal's
value, but `len as usize` (src/parser.rs line 251) truncates the `i128` to
the 64-bit `usize`: the length literal 18446744073709551616 (2^64) parses
successfully to an element count of 0. -/
theorem c4_length_wraps_at_2_pow_64 :
    parseArrayTy 9
        [puncTok .lbracket { start := 0, stop := 1 }, identTok "i32" { start := 1, stop := 4 },
         puncTok .semicolon { start := 4, stop := 5 },
         { kind := .decLit, lit := "18446744073709551616", span := { start := 6, stop := 26 } },
         puncTok .rbracket { start := 26, stop := 27 }, puncTok .eof { start := 27, stop := 27 }]
      = .ok (.array (.mk { start := 1, stop := 5 }
              (.path { span := { start := 1, stop := 4 },
                       segments := [{ ident := { span := { start := 1, stop := 4 },
                                                 id := "i32" } }] }))
            0,
          [puncTok .rbracket { start := 26, stop := 27 },
           puncTok .eof { start := 27, stop := 27 }]) ∧
    (0 : Nat) ≠ 18446744073709551616 :=
  ⟨rfl, by decide⟩

/-- Claim C4, amended: for an array type whose length literal parses (via
`i128::from_str_radix`) to a negative value, `parse_array_ty` fails with the
array-size-specific InvalidArraySize error carrying that value, not a generic
token error; for a non-negative value *below 2^64* (the `usize` width of the
64-bit target; larger values wrap modulo 2^64 and values outside `i128` panic
in the conversion), parsing succeeds and the Array type's element count
equals the literal's value. -/
theorem c4_array_size_amended :
    ∀ (fuel : Nat) (nT dl : String) (v : Int) (s₁ s₂ s₃ s₄ : ByteSpan) (rest : List Token),
      i128FromStrRadix dl 10 = some v →
      (v < 0 →
        parseArrayTy (fuel + 4)
            (puncTok .lbracket s₁ :: identTok nT s₂ :: puncTok .semicolon s₃ ::
              { kind := .decLit, lit := dl, span := s₄ } :: rest)
          = .error (.parseError (.invalidArraySize v))) ∧
      (0 ≤ v → v < 2 ^ 64 →
        parseArrayTy (fuel + 4)
            (puncTok .lbracket s₁ :: identTok nT s₂ :: puncTok .semicolon s₃ ::
              { kind := .decLit, lit := dl, span := s₄ } :: rest)
          = .ok (.array (.mk { start := s₂.start, stop := s₃.stop }
                  (.path { span := s₂, segments := [{ ident := { span := s₂, id := nT } }] }))
                v.toNat, rest)) := by
  intro fuel nT dl v s₁ s₂ s₃ s₄ rest h
  constructor
  · intro hneg
    simp [parseArrayTy, parseType, parsePath, parsePathSegments, parsePathSegment, parseIdent,
      parseIntegerLiteral, parseLiteral, peek, next, eat, puncTok, identTok, h, hneg,
      Literal.kind]
  · intro h0 h64
    have hm : v.toNat % 2 ^ 64 = v.toNat := Nat.mod_eq_of_lt (by omega)
    simp [parseArrayTy, parseType, parsePath, parsePathSegments, parsePathSegment, parseIdent,
      parseIntegerLiteral, parseLiteral, peek, next, eat, puncTok, identTok, h,
      not_lt.mpr h0, Literal.kind, hm, lastSegment]
    omega

/-- Claim C4, witness: the spec's own examples.  `[i32; -1]` fails with
InvalidArraySize carrying -1, and `[i32; 4]` succeeds with element count 4. -/
theorem c4_array_size_amended_witness :
    i128FromStrRadix "-1" 10 = some (-1) ∧
    parseArrayTy 9
        (puncTok .lbracket { start := 0, stop := 1 } :: identTok "i32" { start := 1, stop := 4 } ::
          puncTok .semicolon { start := 4, stop := 5 } ::
          { kind := .decLit, lit := "-1", span := { start := 6, stop := 8 } } ::
          [puncTok .rbracket { start := 8, stop := 9 }, puncTok .eof { start := 9, stop := 9 }])
      = .error (.parseError (.invalidArraySize (-1))) ∧
    i128FromStrRadix "4" 10 = some 4 ∧
    parseArrayTy 9
        (puncTok .lbracket { start := 0, stop := 1 } :: identTok "i32" { start := 1, stop := 4 } ::
          puncTok .semicolon { start := 4, stop := 5 } ::
          { kind := .decLit, lit := "4", span := { start := 6, stop := 7 } } ::
          [puncTok .rbracket { start := 7, stop := 8 }, puncTok .eof { start := 8, stop := 8 }])
      = .ok (.array (.mk { start := 1, stop := 5 }
              (.path { span := { start := 1, stop := 4 },
                       segments := [{ ident := { span := { start := 1, stop := 4 },
                                                 id := "i32" } }] }))
            (Int.toNat 4),
          [puncTok .rbracket { start := 7, stop := 8 }, puncTok .eof { start := 8, stop := 8 }]) :=
  ⟨rfl,
   (c4_array_size_amended 5 "i32" "-1" (-1) { start := 0, stop := 1 } { start := 1, stop := 4 }
      { start := 4, stop := 5 } { start := 6, stop := 8 }
      [puncTok .rbracket { start := 8, stop := 9 }, puncTok .eof { start := 9, stop := 9 }]
      rfl).1 (by decide),
   rfl,
   (c4_array_size_amended 5 "i32" "4" 4 { start := 0, stop := 1 } { start := 1, stop := 4 }
      { start := 4, stop := 5 } { start := 6, stop := 7 }
      [puncTok .rbracket { start := 7, stop := 8 }, puncTok .eof { start := 8, stop := 8 }]
      rfl).2 (by decide) (by decide)⟩

/-! ## Claim C8: integer literal values -/

/-- Claim C8: integer literals of each radix parse to the literal's
mathematical value, hex/octal/binary after stripping their fixed
two-character prefix.  The first four conjuncts are the spec's examples
(42, 0xFF → 255, 0o17 → 15, 0b101 → 5); the last four are universal: for any
token of the kind whose slice is the (prefix plus) digit string `cs` whose
digits denote `ds`, the parsed value is the positional value of `ds` in that
radix, whenever that value fits in `i128`. -/
theorem c8_integer_literal_values :
    parseLiteral 5 [{ kind := .decLit, lit := "42", span := { start := 0, stop := 2 } },
        puncTok .eof { start := 2, stop := 2 }]
      = .ok (.mk (.int 42) { start := 0, stop := 2 }, [puncTok .eof { start := 2, stop := 2 }]) ∧
    parseLiteral 5 [{ kind := .hexLit, lit := "0xFF", span := { start := 0, stop := 4 } },
        puncTok .eof { start := 4, stop := 4 }]
      = .ok (.mk (.int 255) { start := 0, stop := 4 }, [puncTok .eof { start := 4, stop := 4 }]) ∧
    parseLiteral 5 [{ kind := .octLit, lit := "0o17", span := { start := 0, stop := 4 } },
        puncTok .eof { start := 4, stop := 4 }]
      = .ok (.mk (.int 15) { start := 0, stop := 4 }, [puncTok .eof { start := 4, stop := 4 }]) ∧
    parseLiteral 5 [{ kind := .binLit, lit := "0b101", span := { start := 0, stop := 5 } },
        puncTok .eof { start := 5, stop := 5 }]
      = .ok (.mk (.int 5) { start := 0, stop := 5 }, [puncTok .eof { start := 5, stop := 5 }]) ∧
    (∀ (fuel : Nat) (t : Token) (rest : List Token) (cs : List Char) (ds : List Nat),
      t.kind = .decLit → t.lit.data = cs →
      cs.map (digitValue 10) = ds.map some → cs ≠ [] →
      (natOfDigits 10 ds : Int) ≤ i128Max →
      parseLiteral (fuel + 1) (t :: rest)
        = .ok (.mk (.int (natOfDigits 10 ds)) t.span, rest)) ∧
    (∀ (fuel : Nat) (t : Token) (rest : List Token) (c₀ c₁ : Char) (cs : List Char)
        (ds : List Nat),
      t.kind = .hexLit → t.lit.data = c₀ :: c₁ :: cs →
      cs.map (digitValue 16) = ds.map some → cs ≠ [] →
      (natOfDigits 16 ds : Int) ≤ i128Max →
      parseLiteral (fuel + 1) (t :: rest)
        = .ok (.mk (.int (natOfDigits 16 ds)) t.span, rest)) ∧
    (∀ (fuel : Nat) (t : Token) (rest : List Token) (c₀ c₁ : Char) (cs : List Char)
        (ds : List Nat),
      t.kind = .octLit → t.lit.data = c₀ :: c₁ :: cs →
      cs.map (digitValue 8) = ds.map some → cs ≠ [] →
      (natOfDigits 8 ds : Int) ≤ i128Max →
      parseLiteral (fuel + 1) (t :: rest)
        = .ok (.mk (.int (natOfDigits 8 ds)) t.span, rest)) ∧
    (∀ (fuel : Nat) (t : Token) (rest : List Token) (c₀ c₁ : Char) (cs : List Char)
        (ds : List Nat),
      t.kind = .binLit → t.lit.data = c₀ :: c₁ :: cs →
      cs.map (digitValue 2) = ds.map some → cs ≠ [] →
      (natOfDigits 2 ds : Int) ≤ i128Max →
      parseLiteral (fuel + 1) (t :: rest)
        = .ok (.mk (.int (natOfDigits 2 ds)) t.span, rest)) := by
  refine ⟨rfl, rfl, rfl, rfl, ?_, ?_, ?_, ?_⟩
  · intro fuel t rest cs ds hk hdata hmap hne hbound
    have hval : i128FromStrRadix t.lit 10 = some ((natOfDigits 10 ds : Int)) :=
      i128FromStrRadix_digits 10 t.lit ds (by rw [hdata]; exact hmap)
        (by rw [hdata]; exact hne) hbound
    simp [parseLiteral, peek, next, eat, hk, hval]
  · intro fuel t rest c₀ c₁ cs ds hk hdata hmap hne hbound
    have hstr : (dropPre2 t.lit).data = cs := by simp [dropPre2, hdata]
    have hval : i128FromStrRadix (dropPre2 t.lit) 16 = some ((natOfDigits 16 ds : Int)) :=
      i128FromStrRadix_digits 16 _ ds (by rw [hstr]; exact hmap) (by rw [hstr]; exact hne) hbound
    simp [parseLiteral, peek, next, eat, hk, hval]
  · intro fuel t rest c₀ c₁ cs ds hk hdata hmap hne hbound
    have hstr : (dropPre2 t.lit).data = cs := by simp [dropPre2, hdata]
    have hval : i128FromStrRadix (dropPre2 t.lit) 8 = some ((natOfDigits 8 ds : Int)) :=
      i128FromStrRadix_digits 8 _ ds (by rw [hstr]; exact hmap) (by rw [hstr]; exact hne) hbound
    simp [parseLiteral, peek, next, eat, hk, hval]
  · intro fuel t rest c₀ c₁ cs ds hk hdata hmap hne hbound
    have hstr : (dropPre2 t.lit).data = cs := by simp [dropPre2, hdata]
    have hval : i128FromStrRadix (dropPre2 t.lit) 2 = some ((natOfDigits 2 ds : Int)) :=
      i128FromStrRadix_digits 2 _ ds (by rw [hstr]; exact hmap) (by rw [hstr]; exact hne) hbound
    simp [parseLiteral, peek, next, eat, hk, hval]

/-- Claim C8, witness: the universal hex conjunct applied to `0xFF`, whose
digit string `FF` denotes the digit list [15, 15] with positional value
255. -/
theorem c8_integer_literal_values_witness :
    ("0xFF".data = '0' :: 'x' :: ['F', 'F']) ∧
    (['F', 'F'].map (digitValue 16) = [15, 15].map some) ∧
    parseLiteral 5 [{ kind := .hexLit, lit := "0xFF", span := { start := 0, stop := 4 } },
        puncTok .eof { start := 4, stop := 4 }]
      = .ok (.mk (.int (natOfDigits 16 [15, 15])) { start := 0, stop := 4 },
          [puncTok .eof { start := 4, stop := 4 }]) :=
  ⟨rfl, by decide,
   c8_integer_literal_values.2.2.2.2.2.1 4
     { kind := .hexLit, lit := "0xFF", span := { start := 0, stop := 4 } }
     [puncTok .eof { start := 4, stop := 4 }] '0' 'x' ['F', 'F'] [15, 15]
     rfl rfl (by decide) (by decide) (by decide)⟩

end Bismite
